import Mathlib

/-!
Verification development for the nettlesome generic-term matching and
logical-comparison engine.  The repository ships only documentation
(tutorials, notebooks with recorded outputs, and a changelog); the engine
itself is modelled here from the specification, with the documented
example runs in the repository serving as the authority on concrete
behavior.  Pure data is represented with `Rat` magnitudes, `String`
names, and lists; the matching search is an executable function on
lists of candidate term orderings.
-/

namespace Nettlesome

/-- Modelled from the spec: the dimension of a quantity's unit.  The spec's
QuantityRange is a tagged union over number, unit and date kinds; ranges of
different kinds admit no defined conversion and never compare as true. -/
inductive Dim where
  | length
  | mass
  | scalar
deriving DecidableEq, Repr

/-- Modelled from the spec: the units appearing in the documented examples,
resolved through the external unit-conversion collaborator.  `one` stands for
a plain number with no unit (the spec's plain FloatRange / IntRange kind). -/
inductive QUnit where
  | meter
  | yard
  | mile
  | kilometer
  | gram
  | pound
  | kilogram
  | ounce
  | one
deriving DecidableEq, Repr

/-- Dimension of each unit. -/
def QUnit.dim : QUnit → Dim
  | .meter => .length
  | .yard => .length
  | .mile => .length
  | .kilometer => .length
  | .gram => .mass
  | .pound => .mass
  | .kilogram => .mass
  | .ounce => .mass
  | .one => .scalar

/-- Conversion factor to the base subunit of the dimension, per the external
conversion table.  The base subunits are chosen fine enough that every factor
is an exact integer: a tenth of a millimeter for lengths (1 yard is exactly
0.9144 m = 9144 subunits) and 1/1600000 gram for masses (1 avoirdupois pound
is exactly 453.59237 g = 725747792 subunits, an ounce a sixteenth of that). -/
def QUnit.scale : QUnit → ℤ
  | .meter => 10000
  | .yard => 9144
  | .mile => 16093440
  | .kilometer => 10000000
  | .gram => 1600000
  | .pound => 725747792
  | .kilogram => 1600000000
  | .ounce => 45359237
  | .one => 1

/-- Modelled from the spec: the comparison sign of a QuantityRange,
one of =, !=, >, >=, <, <=. -/
inductive Sign where
  | eq
  | ne
  | gt
  | ge
  | lt
  | le
deriving DecidableEq, Repr

/-- The logically negated sign used when a Comparison is constructed with
`truth=false` and an inequality sign: `>=` becomes `<`, `>` becomes `<=`,
`<=` becomes `>`, `<` becomes `>=`; equality signs are left alone. -/
def Sign.negate : Sign → Sign
  | .gt => .le
  | .ge => .lt
  | .lt => .ge
  | .le => .gt
  | .eq => .eq
  | .ne => .ne

/-- Exchange = and != (used to read a `truth=false` equality Comparison as a
true statement about the complementary set of values). -/
def Sign.flipEqNe : Sign → Sign
  | .eq => .ne
  | .ne => .eq
  | s => s

/-- Whether the sign is a strict or non-strict inequality (these are the
signs rewritten at construction when `truth=false`). -/
def Sign.isInequality : Sign → Bool
  | .gt => true
  | .ge => true
  | .lt => true
  | .le => true
  | .eq => false
  | .ne => false

/-- The predicate `x` satisfies sign `s` with bound `m`. -/
def Sign.sat : Sign → ℚ → ℚ → Prop
  | .eq, m, x => x = m
  | .ne, m, x => x ≠ m
  | .gt, m, x => m < x
  | .ge, m, x => m ≤ x
  | .lt, m, x => x < m
  | .le, m, x => x ≤ m

/-- Modelled from the spec: a QuantityRange holds a magnitude, a unit and a
comparison sign (the repository's UnitRange / IntRange / FloatRange variants,
collapsed to one record with a unit tag; `include_negatives=False` per the
documented default, so the carrier set is the nonnegative rationals). -/
structure QRange where
  magnitude : ℤ
  unit : QUnit
  sign : Sign
deriving DecidableEq, Repr

/-- Magnitude converted to the base subunit of the range's dimension. -/
def QRange.baseMagnitude (q : QRange) : ℤ := q.magnitude * q.unit.scale

/-- The interval of (nonnegative, base-unit) values a true statement with this
range asserts the quantity to lie in. -/
def QRange.toSet (q : QRange) : Set ℚ :=
  {x : ℚ | 0 ≤ x ∧ q.sign.sat (q.baseMagnitude : ℚ) x}

/-- Decision table: the nonnegative interval with bound `m1` and sign `s1` is
contained in the one with bound `m2` and sign `s2` (both bounds positive). -/
def signImplies (m1 : ℤ) (s1 : Sign) (m2 : ℤ) (s2 : Sign) : Bool :=
  match s1, s2 with
  | .eq, .eq => decide (m1 = m2)
  | .eq, .ne => decide (m1 ≠ m2)
  | .eq, .gt => decide (m2 < m1)
  | .eq, .ge => decide (m2 ≤ m1)
  | .eq, .lt => decide (m1 < m2)
  | .eq, .le => decide (m1 ≤ m2)
  | .ne, .ne => decide (m1 = m2)
  | .ne, _ => false
  | .gt, .ne => decide (m2 ≤ m1)
  | .gt, .gt => decide (m2 ≤ m1)
  | .gt, .ge => decide (m2 ≤ m1)
  | .gt, _ => false
  | .ge, .ne => decide (m2 < m1)
  | .ge, .gt => decide (m2 < m1)
  | .ge, .ge => decide (m2 ≤ m1)
  | .ge, _ => false
  | .lt, .ne => decide (m1 ≤ m2)
  | .lt, .lt => decide (m1 ≤ m2)
  | .lt, .le => decide (m1 ≤ m2)
  | .lt, _ => false
  | .le, .ne => decide (m1 < m2)
  | .le, .lt => decide (m1 < m2)
  | .le, .le => decide (m1 ≤ m2)
  | .le, _ => false

/-- Decision table: the nonnegative intervals with bounds `m1`, `m2` and
signs `s1`, `s2` are disjoint (both bounds positive). -/
def signDisjoint (m1 : ℤ) (s1 : Sign) (m2 : ℤ) (s2 : Sign) : Bool :=
  match s1, s2 with
  | .eq, .eq => decide (m1 ≠ m2)
  | .eq, .ne => decide (m1 = m2)
  | .eq, .gt => decide (m1 ≤ m2)
  | .eq, .ge => decide (m1 < m2)
  | .eq, .lt => decide (m2 ≤ m1)
  | .eq, .le => decide (m2 < m1)
  | .ne, .eq => decide (m1 = m2)
  | .ne, _ => false
  | .gt, .eq => decide (m2 ≤ m1)
  | .gt, .lt => decide (m2 ≤ m1)
  | .gt, .le => decide (m2 ≤ m1)
  | .gt, _ => false
  | .ge, .eq => decide (m2 < m1)
  | .ge, .lt => decide (m2 ≤ m1)
  | .ge, .le => decide (m2 < m1)
  | .ge, _ => false
  | .lt, .eq => decide (m1 ≤ m2)
  | .lt, .gt => decide (m1 ≤ m2)
  | .lt, .ge => decide (m1 ≤ m2)
  | .lt, _ => false
  | .le, .eq => decide (m1 < m2)
  | .le, .gt => decide (m1 ≤ m2)
  | .le, .ge => decide (m1 < m2)
  | .le, _ => false

/-- The containment decision table transported to rational bounds (proof-side
mirror of `signImplies`, used to state the interval semantics). -/
def signImpliesQ (m1 : ℚ) (s1 : Sign) (m2 : ℚ) (s2 : Sign) : Bool :=
  match s1, s2 with
  | .eq, .eq => decide (m1 = m2)
  | .eq, .ne => decide (m1 ≠ m2)
  | .eq, .gt => decide (m2 < m1)
  | .eq, .ge => decide (m2 ≤ m1)
  | .eq, .lt => decide (m1 < m2)
  | .eq, .le => decide (m1 ≤ m2)
  | .ne, .ne => decide (m1 = m2)
  | .ne, _ => false
  | .gt, .ne => decide (m2 ≤ m1)
  | .gt, .gt => decide (m2 ≤ m1)
  | .gt, .ge => decide (m2 ≤ m1)
  | .gt, _ => false
  | .ge, .ne => decide (m2 < m1)
  | .ge, .gt => decide (m2 < m1)
  | .ge, .ge => decide (m2 ≤ m1)
  | .ge, _ => false
  | .lt, .ne => decide (m1 ≤ m2)
  | .lt, .lt => decide (m1 ≤ m2)
  | .lt, .le => decide (m1 ≤ m2)
  | .lt, _ => false
  | .le, .ne => decide (m1 < m2)
  | .le, .lt => decide (m1 < m2)
  | .le, .le => decide (m1 ≤ m2)
  | .le, _ => false

/-- The disjointness decision table transported to rational bounds (proof-side
mirror of `signDisjoint`). -/
def signDisjointQ (m1 : ℚ) (s1 : Sign) (m2 : ℚ) (s2 : Sign) : Bool :=
  match s1, s2 with
  | .eq, .eq => decide (m1 ≠ m2)
  | .eq, .ne => decide (m1 = m2)
  | .eq, .gt => decide (m1 ≤ m2)
  | .eq, .ge => decide (m1 < m2)
  | .eq, .lt => decide (m2 ≤ m1)
  | .eq, .le => decide (m2 < m1)
  | .ne, .eq => decide (m1 = m2)
  | .ne, _ => false
  | .gt, .eq => decide (m2 ≤ m1)
  | .gt, .lt => decide (m2 ≤ m1)
  | .gt, .le => decide (m2 ≤ m1)
  | .gt, _ => false
  | .ge, .eq => decide (m2 < m1)
  | .ge, .lt => decide (m2 ≤ m1)
  | .ge, .le => decide (m2 < m1)
  | .ge, _ => false
  | .lt, .eq => decide (m1 ≤ m2)
  | .lt, .gt => decide (m1 ≤ m2)
  | .lt, .ge => decide (m1 ≤ m2)
  | .lt, _ => false
  | .le, .eq => decide (m1 < m2)
  | .le, .gt => decide (m1 ≤ m2)
  | .le, .ge => decide (m1 < m2)
  | .le, _ => false

/-- Modelled from the spec: QuantityRange.implies — true iff self's interval
is fully contained in other's after unit conversion; if the kinds/dimensions
are incompatible the result is `false`, not an error. -/
def QRange.implies (a b : QRange) : Bool :=
  decide (a.unit.dim = b.unit.dim) &&
    signImplies a.baseMagnitude a.sign b.baseMagnitude b.sign

/-- Modelled from the spec: QuantityRange.contradicts — true iff the two
intervals are disjoint, both read as true statements about the same quantity;
incompatible dimensions propagate as a non-match (`false`). -/
def QRange.contradicts (a b : QRange) : Bool :=
  decide (a.unit.dim = b.unit.dim) &&
    signDisjoint a.baseMagnitude a.sign b.baseMagnitude b.sign

/-- Modelled from the spec: a Predicate has a template (held here already
canonicalized by the excluded templating collaborator), a truth value, and —
for the Comparison specialization — an optional quantity range. -/
structure Pred where
  content : String
  truth : Bool
  range : Option QRange
deriving DecidableEq, Repr

/-- Modelled from the spec: the Comparison constructor.  Constructing with
`truth=false` and an inequality sign rewrites the object to `truth=true` with
the logically negated sign, so only equality signs ever co-occur with
`truth=false`. -/
def Comparison.make (content : String) (sign : Sign) (magnitude : ℤ)
    (unit : QUnit) (truth : Bool) : Pred :=
  if truth = false ∧ sign.isInequality = true then
    ⟨content, true, some ⟨magnitude, unit, sign.negate⟩⟩
  else
    ⟨content, truth, some ⟨magnitude, unit, sign⟩⟩

/-- The range a predicate asserts to be true: a `truth=false` equality
Comparison is read as the complementary `=`/`!=` range. -/
def effRange (truth : Bool) (q : QRange) : QRange :=
  if truth then q else {q with sign := q.sign.flipEqNe}

/-- Modelled from the spec: an Entity is an atomic Term with a name, a
`generic` marker (default true) and a `plural` marker (default false). -/
structure Entity where
  name : String
  generic : Bool := true
  plural : Bool := false
deriving DecidableEq, Repr

/-- Modelled from the spec: a ContextRegister is a partial bijective mapping
from generic terms on the left side to generic terms on the right side. -/
abbrev Register := List (Entity × Entity)

/-- The right-hand term a left-hand term is mapped to, if any. -/
def lookupL : Register → Entity → Option Entity
  | [], _ => none
  | p :: rest, a => if p.1 = a then some p.2 else lookupL rest a

/-- The left-hand term mapped to a right-hand term, if any. -/
def lookupR : Register → Entity → Option Entity
  | [], _ => none
  | p :: rest, b => if p.2 = b then some p.1 else lookupR rest b

/-- Extend the register with the pair `(a, b)`, failing when the extension
would violate the bijective invariant. -/
def tryInsert (reg : Register) (a b : Entity) : Option Register :=
  match lookupL reg a with
  | some b' => if b' = b then some reg else none
  | none =>
    match lookupR reg b with
    | some _ => none
    | none => some ((a, b) :: reg)

/-- Reverse the direction of a register. -/
def flipReg (reg : Register) : Register := reg.map (fun p => (p.2, p.1))

/-- Modelled from the spec, changelog 0.4.0: `ContextRegister.from_lists`
pairs the two term lists positionally and works with unequal length lists
(items beyond the shorter list are ignored).  `none` would represent the
fatal ContextFormatError; the pairing itself never produces it. -/
def ContextRegister.from_lists : List Entity → List Entity → Option Register
  | [], _ => some []
  | _, [] => some []
  | a :: as, b :: bs => (ContextRegister.from_lists as bs).map ((a, b) :: ·)

/-- Keep the first occurrence of each entity, dropping later duplicates
(used for the deterministic first-appearance order of generic terms). -/
def dedupFirstAux (seen : List Entity) : List Entity → List Entity
  | [] => []
  | x :: xs =>
    if x ∈ seen then dedupFirstAux seen xs
    else x :: dedupFirstAux (x :: seen) xs

/-- Modelled from the spec: pairwise unification of two ordered term
sequences.  Non-generic leaves match iff structurally equal; a pair of
generic terms is bound in the register, branches violating the bijective
invariant being pruned; a generic term never matches a non-generic one. -/
def unifyTerms : List Entity → List Entity → Register → Option Register
  | [], [], reg => some reg
  | a :: as, b :: bs, reg =>
    if a.generic = true ∧ b.generic = true then
      match tryInsert reg a b with
      | none => none
      | some reg2 => unifyTerms as bs reg2
    else if a.generic = false ∧ b.generic = false ∧ a = b then
      unifyTerms as bs reg
    else none
  | _, _, _ => none

/-- Modelled from the spec: a Statement is a Predicate plus an ordered term
sequence, with `absent` and `generic` markers.  `interchangeable` is the
marker produced by the templating collaborator for a pair of roles whose
placeholders differ only by a trailing index and are therefore mutually
interchangeable. -/
structure Stmt where
  pred : Pred
  terms : List Entity
  interchangeable : Bool := false
  absent : Bool := false
  generic : Bool := false
deriving DecidableEq, Repr

/-- Modelled from the spec: `generic_terms` returns all generic terms of
the statement in deterministic first-appearance order, duplicates removed. -/
def Stmt.generic_terms (s : Stmt) : List Entity :=
  dedupFirstAux [] (s.terms.filter fun e => e.generic)

/-- Modelled from the spec: building a register from a name-keyed mapping
context.  A mapping whose key is not one of the left factor's generic terms
is a fatal ContextFormatError (`none`), surfaced immediately rather than
silently ignored. -/
def ContextRegister.from_map (s : Stmt) (pairs : List (Entity × Entity)) :
    Option Register :=
  if pairs.all (fun p => decide (p.1 ∈ s.generic_terms)) then some pairs else none

/-- The candidate orderings of the right statement's terms: the given order,
plus the swapped pairing when the two roles are mutually interchangeable. -/
def termOrderings (l r : Stmt) : List (List Entity) :=
  if l.interchangeable = true ∧ r.interchangeable = true ∧ r.terms.length = 2
  then [r.terms, r.terms.reverse]
  else [r.terms]

/-- All complete registers unifying the left statement's terms with the right
statement's terms (in some admissible ordering), extending the seed. -/
def contextRegisters (l r : Stmt) (seed : Register) : List Register :=
  (termOrderings l r).filterMap (fun ord => unifyTerms l.terms ord seed)

/-- Shape agreement shared by every relation: same canonical template, same
role-interchange marker, same whole-statement generic marker. -/
def shapeAgrees (l r : Stmt) : Bool :=
  decide (l.pred.content = r.pred.content) &&
    decide (l.interchangeable = r.interchangeable) &&
    decide (l.generic = r.generic)

/-- Shape condition for same meaning: identical truth/absent and, for
Comparisons, effective ranges with the same dimension, base magnitude and
sign; a Comparison never has the same meaning as a plain Predicate. -/
def meansShape (l r : Stmt) : Bool :=
  shapeAgrees l r && decide (l.absent = r.absent) &&
    match l.pred.range, r.pred.range with
    | none, none => decide (l.pred.truth = r.pred.truth)
    | some a, some b =>
      let ea := effRange l.pred.truth a
      let eb := effRange r.pred.truth b
      decide (ea.unit.dim = eb.unit.dim) &&
        decide (ea.baseMagnitude = eb.baseMagnitude) && decide (ea.sign = eb.sign)
    | _, _ => false

/-- Shape condition for implication: for plain Predicates identical truth;
for Comparisons containment of the effective ranges; a Comparison never
implies (nor is implied by) a plain Predicate with no range. -/
def impliesShape (l r : Stmt) : Bool :=
  shapeAgrees l r && decide (l.absent = r.absent) &&
    match l.pred.range, r.pred.range with
    | none, none => decide (l.pred.truth = r.pred.truth)
    | some a, some b =>
      QRange.implies (effRange l.pred.truth a) (effRange r.pred.truth b)
    | _, _ => false

/-- Shape condition for contradiction: for plain Predicates, opposite truth
with the same absent marker, or opposite absent marker with matching truth;
for Comparisons, disjoint effective ranges; a Comparison never contradicts a
plain Predicate with no range. -/
def contradictsShape (l r : Stmt) : Bool :=
  shapeAgrees l r &&
    match l.pred.range, r.pred.range with
    | none, none =>
      (decide (l.absent = r.absent) && decide (l.pred.truth ≠ r.pred.truth)) ||
        (decide (l.absent ≠ r.absent) && decide (l.pred.truth = r.pred.truth))
    | some a, some b =>
      decide (l.absent = r.absent) &&
        QRange.contradicts (effRange l.pred.truth a) (effRange r.pred.truth b)
    | _, _ => false

/-- All registers making the two statements have the same meaning. -/
def Stmt.explanations_same_meaning (l r : Stmt) (seed : Register) : List Register :=
  if meansShape l r then contextRegisters l r seed else []

/-- All registers making the left statement imply the right one. -/
def Stmt.explanations_implication (l r : Stmt) (seed : Register) : List Register :=
  if impliesShape l r then contextRegisters l r seed else []

/-- All registers under which the two statements cannot both be true. -/
def Stmt.explanations_contradiction (l r : Stmt) (seed : Register) : List Register :=
  if contradictsShape l r then contextRegisters l r seed else []

/-- Modelled from the spec: `means` reduces the same-meaning sequence to
existence, additionally requiring the symmetric sequence in the opposite
direction to be non-empty. -/
def Stmt.means (l r : Stmt) : Bool :=
  !(Stmt.explanations_same_meaning l r []).isEmpty &&
    !(Stmt.explanations_same_meaning r l []).isEmpty

/-- `means` seeded with a caller-supplied context register. -/
def Stmt.meansInContext (l r : Stmt) (seed : Register) : Bool :=
  !(Stmt.explanations_same_meaning l r seed).isEmpty &&
    !(Stmt.explanations_same_meaning r l (flipReg seed)).isEmpty

/-- Modelled from the spec: `implies` reduces the implication sequence to
existence of at least one register. -/
def Stmt.implies (l r : Stmt) : Bool :=
  !(Stmt.explanations_implication l r []).isEmpty

/-- Modelled from the spec: `contradicts` reduces the contradiction sequence
to existence of at least one register. -/
def Stmt.contradicts (l r : Stmt) : Bool :=
  !(Stmt.explanations_contradiction l r []).isEmpty

/-- Modelled from the spec: `consistent_with` holds when no enumerated
register makes the two statements contradictory. -/
def Stmt.consistent_with (l r : Stmt) : Bool :=
  !(Stmt.contradicts l r)

/-- Modelled from the spec: a FactorGroup is a set-like collection of
factors with no duplicate members. -/
structure FactorGroup where
  members : List Stmt
deriving DecidableEq, Repr

/-- Build a FactorGroup from a list, removing duplicate members. -/
def FactorGroup.ofList (fs : List Stmt) : FactorGroup := ⟨fs.dedup⟩

/-- Registers under which every factor of `toCover` is related (by `rel`) to
some factor of `candidates`, accumulated from the seed. -/
def coverAll (rel : Stmt → Stmt → Register → List Register) :
    List Stmt → List Stmt → Register → List Register
  | [], _, seed => [seed]
  | f :: rest, candidates, seed =>
    (candidates.flatMap (fun c => rel f c seed)).flatMap
      (fun reg => coverAll rel rest candidates reg)

/-- Modelled from the spec: a FactorGroup contradiction explanation pairs a
member of the left group with a member of the right group and a register
under which the two contradict; the sequence enumerates every such pair and
register, seeded with the caller-supplied context. -/
def FactorGroup.explanations_contradiction (l r : FactorGroup) (seed : Register) :
    List (Stmt × Stmt × Register) :=
  l.members.flatMap (fun lf =>
    r.members.flatMap (fun rf =>
      (Stmt.explanations_contradiction lf rf seed).map (fun reg => (lf, rf, reg))))

/-- Modelled from the spec: group contradiction as existence of at least one
explanation with no seed context. -/
def FactorGroup.contradicts (l r : FactorGroup) : Bool :=
  !(FactorGroup.explanations_contradiction l r []).isEmpty

/-- Modelled from the spec: the left group implies the right group when one
register simultaneously lets every member of the right group be implied by
some member of the left group; an empty FactorGroup additionally implies
anything by the documented policy. -/
def FactorGroup.implies (l r : FactorGroup) : Bool :=
  l.members.isEmpty ||
    !(coverAll (fun rf lf seed => Stmt.explanations_implication lf rf seed)
        r.members l.members []).isEmpty

/-- Modelled from the spec: the groups have the same meaning when one
register lets every left member mean some right member and, flipped, every
right member mean some left member. -/
def FactorGroup.means (l r : FactorGroup) : Bool :=
  (coverAll Stmt.explanations_same_meaning l.members r.members []).any
    (fun reg =>
      !(coverAll Stmt.explanations_same_meaning r.members l.members (flipReg reg)).isEmpty)

/-- The statement with its term order reversed (for a two-term statement,
its terms swapped). -/
def Stmt.swapTerms (s : Stmt) : Stmt := {s with terms := s.terms.reverse}

/-- Replace the entity `a` by `b` (used to rename one generic term
everywhere in a statement). -/
def substEntity (a b x : Entity) : Entity := if x = a then b else x

/-- The statement with every occurrence of the term `a` renamed to `b`. -/
def Stmt.renameTerm (s : Stmt) (a b : Entity) : Stmt :=
  {s with terms := s.terms.map (substEntity a b)}

/-- Apply a function to the left component of every register pair. -/
def mapRegL (f : Entity → Entity) (reg : Register) : Register :=
  reg.map (fun p => (f p.1, p.2))

/-- Apply a function to the right component of every register pair. -/
def mapRegR (f : Entity → Entity) (reg : Register) : Register :=
  reg.map (fun p => (p.1, f p.2))

/-! Concrete factors from the documented example runs.  Template strings are
held in the canonical form produced by the templating collaborator, with the
placeholder slots erased (placeholder names never affect meaning). -/

/-- Entity <Mexico> from the treaty example. -/
def mexico : Entity := ⟨"Mexico", true, false⟩

/-- Entity <USA> from the treaty example. -/
def usa : Entity := ⟨"USA", true, false⟩

/-- Entity <Canada> from the treaty example. -/
def canada : Entity := ⟨"Canada", true, false⟩

/-- Entity <UK> from the treaty example. -/
def uk : Entity := ⟨"UK", true, false⟩

/-- Entity <European Union> from the treaty example. -/
def europeanUnion : Entity := ⟨"European Union", true, false⟩

/-- Entity <Germany> from the treaty example. -/
def germany : Entity := ⟨"Germany", true, false⟩

/-- The treaty template: placeholders `country1`, `country2`, `country3`
differ only by a trailing index, so the two roles of each statement are
mutually interchangeable. -/
def treatyStmt (a b : Entity) (truth : Bool) : Stmt :=
  { pred := ⟨"signed a treaty with", truth, none⟩
    terms := [a, b]
    interchangeable := true }

/-- The documented `nafta` FactorGroup: three countries all making bilateral
agreements with one another. -/
def nafta : FactorGroup :=
  FactorGroup.ofList
    [treatyStmt mexico usa true, treatyStmt usa canada true, treatyStmt usa canada true]

/-- The documented `brexit` FactorGroup: one country making treaties with two
other countries that do not make a treaty with each other. -/
def brexit : FactorGroup :=
  FactorGroup.ofList
    [treatyStmt uk europeanUnion true, treatyStmt europeanUnion germany true,
      treatyStmt germany uk false]

/-- Entity <the political convention> from the distance example. -/
def meeting : Entity := ⟨"the political convention", true, false⟩

/-- Entity <the free speech zone> from the distance example. -/
def protest : Entity := ⟨"the free speech zone", true, false⟩

/-- A distance Statement between two sites (placeholders `site1`/`site2`, so
the two roles are mutually interchangeable). -/
def distanceStmt (sign : Sign) (magnitude : ℤ) (unit : QUnit) (a b : Entity) : Stmt :=
  { pred := Comparison.make "the distance was" sign magnitude unit true
    terms := [a, b]
    interchangeable := true }

/-- Documented: distance greater than 100 yards, terms (meeting, protest). -/
def over100yToProtest : Stmt := distanceStmt .gt 100 .yard meeting protest

/-- Distance less than 1 mile with terms (meeting, protest). -/
def under1miSameTerms : Stmt := distanceStmt .lt 1 .mile meeting protest

/-- Documented: distance less than 1 mile, terms (protest, meeting). -/
def under1miToProtest : Stmt := distanceStmt .lt 1 .mile protest meeting

/-- Distance less than 2 kilometers with terms (meeting, protest). -/
def under2kmSameTerms : Stmt := distanceStmt .lt 2 .kilometer meeting protest

/-- Documented: distance of at least 1 mile, terms (meeting, protest). -/
def atLeast1miToProtest : Stmt := distanceStmt .ge 1 .mile meeting protest

/-- Entity <the police cordon> from the protest example. -/
def cordon : Entity := ⟨"the police cordon", true, false⟩

/-- Entity <the courthouse> from the speech-zone example. -/
def courthouse : Entity := ⟨"the courthouse", true, false⟩

/-- The documented `protest_facts` FactorGroup: more than 100 yards and less
than 1 mile between the convention and the cordon (second statement with
the terms in swapped order). -/
def protestFacts : FactorGroup :=
  FactorGroup.ofList
    [distanceStmt .gt 100 .yard meeting cordon,
      distanceStmt .lt 1 .mile cordon meeting]

/-- The documented `speech_zone_facts` FactorGroup: more than 50 meters and
no more than 2 kilometers between the zone and the courthouse. -/
def speechZoneFacts : FactorGroup :=
  FactorGroup.ofList
    [distanceStmt .gt 50 .meter protest courthouse,
      distanceStmt .le 2 .kilometer protest courthouse]

/-- Entity <Alice> from the vehicle-weight example. -/
def alice : Entity := ⟨"Alice", true, false⟩

/-- Documented: the weight of the driver's vehicle was greater than
26000 pounds, about <Alice>. -/
def poundsStatement : Stmt :=
  { pred := Comparison.make "the weight of the vehicle was" .gt 26000 .pound true
    terms := [alice] }

/-- Documented: the weight of the driver's vehicle was no more than
3000 kilograms, about <Alice>. -/
def kilosStatement : Stmt :=
  { pred := Comparison.make "the weight of the vehicle was" .le 3000 .kilogram true
    terms := [alice] }

/-- The school predicate, `truth=false` ("it was false that the group were at
school"). -/
def notAtSchool : Pred := ⟨"were at school", false, none⟩

/-- Documented: the school statement about the plural generic Entity
<the students>. -/
def pluralStatement : Stmt :=
  { pred := notAtSchool, terms := [⟨"the students", true, true⟩] }

/-- Documented: the school statement about the singular generic Entity
<Lee>. -/
def singularStatement : Stmt :=
  { pred := notAtSchool, terms := [⟨"Lee", true, false⟩] }

/-- The school statement about the plural form of the same generic name used
by `studentsSingular`. -/
def studentsPlural : Stmt :=
  { pred := notAtSchool, terms := [⟨"the students", true, true⟩] }

/-- The school statement about a singular generic Entity with the same name
as `studentsPlural`'s term. -/
def studentsSingular : Stmt :=
  { pred := notAtSchool, terms := [⟨"the students", true, false⟩] }

/-- A school statement about a non-generic plural Entity. -/
def leePluralNonGeneric : Stmt :=
  { pred := notAtSchool, terms := [⟨"Lee", false, true⟩] }

/-- A school statement about a non-generic singular Entity with the same
name. -/
def leeSingularNonGeneric : Stmt :=
  { pred := notAtSchool, terms := [⟨"Lee", false, false⟩] }

/-- Documented: the school statement about the sui-generis, non-generic
Entity <Harry Potter>. -/
def harryStatement : Stmt :=
  { pred := notAtSchool, terms := [⟨"Harry Potter", false, false⟩] }

/-! Semantic characterization of the quantity-range decision tables. -/

/-- The integer decision table agrees with its rational mirror under casts. -/
lemma signImplies_cast (m1 m2 : ℤ) (s1 s2 : Sign) :
    signImplies m1 s1 m2 s2 = signImpliesQ (m1 : ℚ) s1 (m2 : ℚ) s2 := by
  cases s1 <;> cases s2 <;>
    simp [signImplies, signImpliesQ, decide_eq_decide]

/-- The integer disjointness table agrees with its rational mirror under
casts. -/
lemma signDisjoint_cast (m1 m2 : ℤ) (s1 s2 : Sign) :
    signDisjoint m1 s1 m2 s2 = signDisjointQ (m1 : ℚ) s1 (m2 : ℚ) s2 := by
  cases s1 <;> cases s2 <;>
    simp [signDisjoint, signDisjointQ, decide_eq_decide]

/-- The containment decision table is sound and complete for the nonnegative
interval semantics, for positive bounds. -/
lemma signImpliesQ_iff (m1 m2 : ℚ) (s1 s2 : Sign) (h1 : 0 < m1) (h2 : 0 < m2) :
    signImpliesQ m1 s1 m2 s2 = true ↔
      ∀ x : ℚ, 0 ≤ x → s1.sat m1 x → s2.sat m2 x := by
  cases s1 <;> cases s2 <;>
    simp only [signImpliesQ, Sign.sat, decide_eq_true_eq, Bool.false_eq_true, false_iff]
  · constructor
    · intro h x _ hx
      rw [hx, h]
    · intro h
      exact h m1 h1.le rfl
  · constructor
    · intro h x _ hx
      rw [hx]
      exact h
    · intro h
      exact h m1 h1.le rfl
  · constructor
    · intro h x _ hx
      rw [hx]
      exact h
    · intro h
      exact h m1 h1.le rfl
  · constructor
    · intro h x _ hx
      rw [hx]
      exact h
    · intro h
      exact h m1 h1.le rfl
  · constructor
    · intro h x _ hx
      rw [hx]
      exact h
    · intro h
      exact h m1 h1.le rfl
  · constructor
    · intro h x _ hx
      rw [hx]
      exact h
    · intro h
      exact h m1 h1.le rfl
  · intro h
    have h0 := h 0 le_rfl h1.ne
    linarith
  · constructor
    · intro h x _ hx
      rw [← h]
      exact hx
    · intro h
      by_contra hc
      exact (h m2 h2.le (fun he => hc he.symm)) rfl
  · intro h
    have h0 := h 0 le_rfl h1.ne
    linarith
  · intro h
    have h0 := h 0 le_rfl h1.ne
    linarith
  · intro h
    have hx := h (m1 + m2 + 1) (by linarith) (by intro he; linarith)
    linarith
  · intro h
    have hx := h (m1 + m2 + 1) (by linarith) (by intro he; linarith)
    linarith
  · intro h
    have ha := h (m1 + 1) (by linarith) (by linarith)
    have hb := h (m1 + 2) (by linarith) (by linarith)
    linarith
  · constructor
    · intro h x _ hx he
      rw [he] at hx
      linarith
    · intro h
      by_contra hc
      push_neg at hc
      exact h m2 h2.le hc rfl
  · constructor
    · intro h x _ hx
      linarith
    · intro h
      by_contra hc
      push_neg at hc
      have := h ((m1 + m2) / 2) (by linarith) (by linarith)
      linarith
  · constructor
    · intro h x _ hx
      linarith
    · intro h
      by_contra hc
      push_neg at hc
      have := h ((m1 + m2) / 2) (by linarith) (by linarith)
      linarith
  · intro h
    have := h (m1 + m2 + 1) (by linarith) (by linarith)
    linarith
  · intro h
    have := h (m1 + m2 + 1) (by linarith) (by linarith)
    linarith
  · intro h
    have ha := h m1 h1.le le_rfl
    have hb := h (m1 + 1) (by linarith) (by linarith)
    linarith
  · constructor
    · intro h x _ hx he
      rw [he] at hx
      linarith
    · intro h
      by_contra hc
      push_neg at hc
      exact h m2 h2.le hc rfl
  · constructor
    · intro h x _ hx
      linarith
    · intro h
      exact h m1 h1.le le_rfl
  · constructor
    · intro h x _ hx
      linarith
    · intro h
      exact h m1 h1.le le_rfl
  · intro h
    have := h (m1 + m2 + 1) (by linarith) (by linarith)
    linarith
  · intro h
    have := h (m1 + m2 + 1) (by linarith) (by linarith)
    linarith
  · intro h
    have h0 := h 0 le_rfl h1
    linarith
  · constructor
    · intro h x _ hx he
      rw [he] at hx
      linarith
    · intro h
      by_contra hc
      push_neg at hc
      exact h m2 h2.le hc rfl
  · intro h
    have h0 := h 0 le_rfl h1
    linarith
  · intro h
    have h0 := h 0 le_rfl h1
    linarith
  · constructor
    · intro h x _ hx
      linarith
    · intro h
      by_contra hc
      push_neg at hc
      have := h ((m1 + m2) / 2) (by linarith) (by linarith)
      linarith
  · constructor
    · intro h x _ hx
      linarith
    · intro h
      by_contra hc
      push_neg at hc
      have := h ((m1 + m2) / 2) (by linarith) (by linarith)
      linarith
  · intro h
    have h0 := h 0 le_rfl h1.le
    linarith
  · constructor
    · intro h x _ hx he
      rw [he] at hx
      linarith
    · intro h
      by_contra hc
      push_neg at hc
      exact h m2 h2.le hc rfl
  · intro h
    have h0 := h 0 le_rfl h1.le
    linarith
  · intro h
    have h0 := h 0 le_rfl h1.le
    linarith
  · constructor
    · intro h x _ hx
      linarith
    · intro h
      exact h m1 h1.le le_rfl
  · constructor
    · intro h x _ hx
      linarith
    · intro h
      exact h m1 h1.le le_rfl

/-- The disjointness decision table is sound and complete for the nonnegative
interval semantics, for positive bounds. -/
lemma signDisjointQ_iff (m1 m2 : ℚ) (s1 s2 : Sign) (h1 : 0 < m1) (h2 : 0 < m2) :
    signDisjointQ m1 s1 m2 s2 = true ↔
      ∀ x : ℚ, 0 ≤ x → s1.sat m1 x → s2.sat m2 x → False := by
  cases s1 <;> cases s2 <;>
    simp only [signDisjointQ, Sign.sat, decide_eq_true_eq, Bool.false_eq_true, false_iff]
  · constructor
    · intro h x _ ha hb
      rw [ha] at hb
      exact h hb
    · intro h he
      exact h m1 h1.le rfl he
  · constructor
    · intro h x _ ha hb
      rw [ha] at hb
      exact hb h
    · intro h
      by_contra hc
      exact h m1 h1.le rfl hc
  · constructor
    · intro h x _ ha hb
      rw [ha] at hb
      linarith
    · intro h
      by_contra hc
      push_neg at hc
      exact h m1 h1.le rfl hc
  · constructor
    · intro h x _ ha hb
      rw [ha] at hb
      linarith
    · intro h
      by_contra hc
      push_neg at hc
      exact h m1 h1.le rfl hc
  · constructor
    · intro h x _ ha hb
      rw [ha] at hb
      linarith
    · intro h
      by_contra hc
      push_neg at hc
      exact h m1 h1.le rfl hc
  · constructor
    · intro h x _ ha hb
      rw [ha] at hb
      linarith
    · intro h
      by_contra hc
      push_neg at hc
      exact h m1 h1.le rfl hc
  · constructor
    · intro h x _ ha hb
      rw [hb] at ha
      exact ha h.symm
    · intro h
      by_contra hc
      exact h m2 h2.le (fun he => hc he.symm) rfl
  · intro h
    exact h (m1 + m2 + 1) (by linarith) (by intro he; linarith) (by intro he; linarith)
  · intro h
    exact h (m1 + m2 + 1) (by linarith) (by intro he; linarith) (by linarith)
  · intro h
    exact h (m1 + m2 + 1) (by linarith) (by intro he; linarith) (by linarith)
  · intro h
    exact h 0 le_rfl h1.ne h2
  · intro h
    exact h 0 le_rfl h1.ne h2.le
  · constructor
    · intro h x _ ha hb
      rw [hb] at ha
      linarith
    · intro h
      by_contra hc
      push_neg at hc
      exact h m2 h2.le hc rfl
  · intro h
    exact h (m1 + m2 + 1) (by linarith) (by linarith) (by intro he; linarith)
  · intro h
    exact h (m1 + m2 + 1) (by linarith) (by linarith) (by linarith)
  · intro h
    exact h (m1 + m2 + 1) (by linarith) (by linarith) (by linarith)
  · constructor
    · intro h x _ ha hb
      linarith
    · intro h
      by_contra hc
      push_neg at hc
      exact h ((m1 + m2) / 2) (by linarith) (by linarith) (by linarith)
  · constructor
    · intro h x _ ha hb
      linarith
    · intro h
      by_contra hc
      push_neg at hc
      exact h m2 h2.le hc le_rfl
  · constructor
    · intro h x _ ha hb
      rw [hb] at ha
      linarith
    · intro h
      by_contra hc
      push_neg at hc
      exact h m2 h2.le hc rfl
  · intro h
    exact h (m1 + m2 + 1) (by linarith) (by linarith) (by intro he; linarith)
  · intro h
    exact h (m1 + m2 + 1) (by linarith) (by linarith) (by linarith)
  · intro h
    exact h (m1 + m2 + 1) (by linarith) (by linarith) (by linarith)
  · constructor
    · intro h x _ ha hb
      linarith
    · intro h
      by_contra hc
      push_neg at hc
      exact h m1 h1.le le_rfl hc
  · constructor
    · intro h x _ ha hb
      linarith
    · intro h
      by_contra hc
      push_neg at hc
      exact h m1 h1.le le_rfl hc
  · constructor
    · intro h x _ ha hb
      rw [hb] at ha
      linarith
    · intro h
      by_contra hc
      push_neg at hc
      exact h m2 h2.le hc rfl
  · intro h
    exact h 0 le_rfl h1 h2.ne
  · constructor
    · intro h x _ ha hb
      linarith
    · intro h
      by_contra hc
      push_neg at hc
      exact h ((m1 + m2) / 2) (by linarith) (by linarith) (by linarith)
  · constructor
    · intro h x _ ha hb
      linarith
    · intro h
      by_contra hc
      push_neg at hc
      exact h ((m1 + m2) / 2) (by linarith) (by linarith) (by linarith)
  · intro h
    exact h 0 le_rfl h1 h2
  · intro h
    exact h 0 le_rfl h1 h2.le
  · constructor
    · intro h x _ ha hb
      rw [hb] at ha
      linarith
    · intro h
      by_contra hc
      push_neg at hc
      exact h m2 h2.le hc rfl
  · intro h
    exact h 0 le_rfl h1.le h2.ne
  · constructor
    · intro h x _ ha hb
      linarith
    · intro h
      by_contra hc
      push_neg at hc
      exact h m1 h1.le le_rfl hc
  · constructor
    · intro h x _ ha hb
      linarith
    · intro h
      by_contra hc
      push_neg at hc
      exact h m1 h1.le le_rfl hc
  · intro h
    exact h 0 le_rfl h1.le h2
  · intro h
    exact h 0 le_rfl h1.le h2.le

/-- QuantityRange implication agrees with set containment of the interval
semantics, for compatible dimensions and positive base magnitudes. -/
lemma QRange.implies_iff (a b : QRange) (h1 : 0 < a.baseMagnitude)
    (h2 : 0 < b.baseMagnitude) :
    QRange.implies a b = true ↔ a.unit.dim = b.unit.dim ∧ a.toSet ⊆ b.toSet := by
  rw [QRange.implies, Bool.and_eq_true, decide_eq_true_eq]
  apply and_congr_right
  intro _
  rw [signImplies_cast,
    signImpliesQ_iff _ _ _ _ (by exact_mod_cast h1) (by exact_mod_cast h2)]
  constructor
  · intro h x hx
    obtain ⟨hx0, hs⟩ := hx
    exact ⟨hx0, h x hx0 hs⟩
  · intro h x hx hs
    exact (h ⟨hx, hs⟩).2

/-- QuantityRange contradiction agrees with set disjointness of the interval
semantics, for compatible dimensions and positive base magnitudes. -/
lemma QRange.contradicts_iff (a b : QRange) (h1 : 0 < a.baseMagnitude)
    (h2 : 0 < b.baseMagnitude) :
    QRange.contradicts a b = true ↔ a.unit.dim = b.unit.dim ∧ Disjoint a.toSet b.toSet := by
  rw [QRange.contradicts, Bool.and_eq_true, decide_eq_true_eq]
  apply and_congr_right
  intro _
  rw [signDisjoint_cast,
    signDisjointQ_iff _ _ _ _ (by exact_mod_cast h1) (by exact_mod_cast h2),
    Set.disjoint_left]
  constructor
  · intro h x hxa hxb
    obtain ⟨hx0, hs1⟩ := hxa
    obtain ⟨_, hs2⟩ := hxb
    exact h x hx0 hs1 hs2
  · intro h x hx0 hs1 hs2
    exact h ⟨hx0, hs1⟩ ⟨hx0, hs2⟩

/-! Properties of the term-unification search. -/

/-- Unification fails outright on term sequences of different lengths. -/
lemma unify_none_of_length (as : List Entity) :
    ∀ (bs : List Entity) (reg : Register), as.length ≠ bs.length →
      unifyTerms as bs reg = none := by
  induction as with
  | nil =>
    intro bs reg h
    cases bs with
    | nil => simp at h
    | cons b bs => rfl
  | cons a as ih =>
    intro bs reg h
    cases bs with
    | nil => rfl
    | cons b bs =>
      have h2 : as.length ≠ bs.length := by simpa using h
      by_cases c1 : a.generic = true ∧ b.generic = true
      · simp only [unifyTerms, if_pos c1]
        cases htri : tryInsert reg a b with
        | none => rfl
        | some r2 => exact ih bs r2 h2
      · by_cases c2 : a.generic = false ∧ b.generic = false ∧ a = b
        · simp only [unifyTerms, if_neg c1, if_pos c2]
          exact ih bs reg h2
        · simp only [unifyTerms, if_neg c1, if_neg c2]

/-- Unification fails whenever some aligned position pairs a generic with a
non-generic term, or two distinct non-generic terms, whatever the register. -/
lemma unify_none_of_fail (pre1 : List Entity) :
    ∀ (pre2 post1 post2 : List Entity) (x y : Entity) (reg : Register),
      pre1.length = pre2.length →
      ¬(x.generic = true ∧ y.generic = true) →
      ¬(x.generic = false ∧ y.generic = false ∧ x = y) →
      unifyTerms (pre1 ++ x :: post1) (pre2 ++ y :: post2) reg = none := by
  induction pre1 with
  | nil =>
    intro pre2 post1 post2 x y reg hlen h1 h2
    cases pre2 with
    | cons p ps => simp at hlen
    | nil => simp only [List.nil_append, unifyTerms, if_neg h1, if_neg h2]
  | cons a as ih =>
    intro pre2 post1 post2 x y reg hlen h1 h2
    cases pre2 with
    | nil => simp at hlen
    | cons b bs =>
      have hlen2 : as.length = bs.length := by simpa using hlen
      simp only [List.cons_append]
      by_cases c1 : a.generic = true ∧ b.generic = true
      · simp only [unifyTerms, if_pos c1]
        cases htri : tryInsert reg a b with
        | none => rfl
        | some r2 => exact ih bs post1 post2 x y r2 hlen2 h1 h2
      · by_cases c2 : a.generic = false ∧ b.generic = false ∧ a = b
        · simp only [unifyTerms, if_neg c1, if_pos c2]
          exact ih bs post1 post2 x y reg hlen2 h1 h2
        · simp only [unifyTerms, if_neg c1, if_neg c2]

/-- Success of two-term unification from an empty register does not depend
on the order in which the two matched pairs are processed. -/
lemma unify_pair_comm (a b x y : Entity) :
    (unifyTerms [a, b] [x, y] []).isSome = (unifyTerms [b, a] [y, x] []).isSome := by
  by_cases c1 : a.generic = true ∧ x.generic = true
  · by_cases c2 : b.generic = true ∧ y.generic = true
    · simp only [unifyTerms, if_pos c1, if_pos c2, tryInsert, lookupL, lookupR]
      by_cases hab : a = b
      · subst hab
        by_cases hxy : x = y
        · subst hxy
          simp
        · have hyx : ¬ y = x := fun h => hxy h.symm
          simp [hxy, hyx]
      · have hba : ¬ b = a := fun h => hab h.symm
        by_cases hxy : x = y
        · subst hxy
          simp [hab, hba]
        · have hyx : ¬ y = x := fun h => hxy h.symm
          simp [hab, hba, hxy, hyx]
    · by_cases c2h : b.generic = false ∧ y.generic = false ∧ b = y
      · simp only [unifyTerms, if_pos c1, if_neg c2, if_pos c2h, tryInsert, lookupL,
          lookupR]
      · simp only [unifyTerms, if_pos c1, if_neg c2, if_neg c2h, tryInsert, lookupL,
          lookupR]
  · by_cases c1h : a.generic = false ∧ x.generic = false ∧ a = x
    · by_cases c2 : b.generic = true ∧ y.generic = true
      · simp only [unifyTerms, if_neg c1, if_pos c1h, if_pos c2, tryInsert, lookupL,
          lookupR]
      · by_cases c2h : b.generic = false ∧ y.generic = false ∧ b = y
        · simp only [unifyTerms, if_neg c1, if_pos c1h, if_neg c2, if_pos c2h]
        · simp only [unifyTerms, if_neg c1, if_pos c1h, if_neg c2, if_neg c2h]
    · by_cases c2 : b.generic = true ∧ y.generic = true
      · simp only [unifyTerms, if_neg c1, if_neg c1h, if_pos c2, tryInsert, lookupL,
          lookupR]
      · by_cases c2h : b.generic = false ∧ y.generic = false ∧ b = y
        · simp only [unifyTerms, if_neg c1, if_neg c1h, if_neg c2, if_pos c2h]
        · simp only [unifyTerms, if_neg c1, if_neg c1h, if_neg c2, if_neg c2h]

/-- Emptiness of a filterMap over a two-element candidate list. -/
lemma filterMap_two_isEmpty {α β : Type} (f : α → Option β) (o1 o2 : α) :
    ([o1, o2].filterMap f).isEmpty = ((f o1).isNone && (f o2).isNone) := by
  cases h1 : f o1 <;> cases h2 : f o2 <;> simp [h1, h2]

/-- Option emptiness as negated fullness. -/
lemma isNone_eq_not_isSome {α : Type} (o : Option α) : o.isNone = !o.isSome := by
  cases o <;> rfl

/-- Swapping the right statement's two interchangeable terms permutes the
candidate orderings tried against the left terms, so no register is gained
or lost. -/
lemma contextRegisters_swap_right (l r : Stmt) (hl : l.interchangeable = true)
    (hr : r.interchangeable = true) (hlen : r.terms.length = 2) :
    (contextRegisters l (Stmt.swapTerms r) []).isEmpty =
      (contextRegisters l r []).isEmpty := by
  have hord1 : termOrderings l (Stmt.swapTerms r) = [r.terms.reverse, r.terms] := by
    simp [termOrderings, Stmt.swapTerms, hl, hr, hlen]
  have hord2 : termOrderings l r = [r.terms, r.terms.reverse] := by
    simp [termOrderings, hl, hr, hlen]
  simp only [contextRegisters, hord1, hord2]
  cases h1 : unifyTerms l.terms r.terms [] <;>
    cases h2 : unifyTerms l.terms r.terms.reverse [] <;>
    simp [h1, h2]

/-- Swapping the left statement's two interchangeable terms likewise
preserves whether any register exists in the opposite direction. -/
lemma contextRegisters_swap_left (l r : Stmt) (hl : l.interchangeable = true)
    (hr : r.interchangeable = true) (hlen : r.terms.length = 2) :
    (contextRegisters (Stmt.swapTerms r) l []).isEmpty =
      (contextRegisters r l []).isEmpty := by
  obtain ⟨a, b, hab⟩ := List.length_eq_two.mp hlen
  have hXt : (Stmt.swapTerms r).terms = r.terms.reverse := rfl
  by_cases hlt : l.terms.length = 2
  · obtain ⟨x, y, hxy⟩ := List.length_eq_two.mp hlt
    have hordS : termOrderings (Stmt.swapTerms r) l = [l.terms, l.terms.reverse] := by
      simp [termOrderings, Stmt.swapTerms, hl, hr, hlt]
    have hordO : termOrderings r l = [l.terms, l.terms.reverse] := by
      simp [termOrderings, hl, hr, hlt]
    simp only [contextRegisters, hordS, hordO]
    rw [hXt, hab, hxy]
    have hrev1 : ([a, b] : List Entity).reverse = [b, a] := by simp
    have hrev2 : ([x, y] : List Entity).reverse = [y, x] := by simp
    rw [hrev1, hrev2, filterMap_two_isEmpty, filterMap_two_isEmpty]
    rw [isNone_eq_not_isSome, isNone_eq_not_isSome, isNone_eq_not_isSome,
      isNone_eq_not_isSome, unify_pair_comm b a x y, unify_pair_comm b a y x]
    exact Bool.and_comm _ _
  · have hordS : termOrderings (Stmt.swapTerms r) l = [l.terms] := by
      simp [termOrderings, hlt]
    have hordO : termOrderings r l = [l.terms] := by
      simp [termOrderings, hlt]
    simp only [contextRegisters, hordS, hordO]
    have h1 : unifyTerms (Stmt.swapTerms r).terms l.terms [] = none := by
      apply unify_none_of_length
      rw [hXt]
      simp only [List.length_reverse, hlen]
      exact fun h => hlt h.symm
    have h2 : unifyTerms r.terms l.terms [] = none := by
      apply unify_none_of_length
      rw [hlen]
      exact fun h => hlt h.symm
    simp [h1, h2]

/-! Renaming a generic term: simulation of the search under substitution. -/

/-- Renaming preserves the generic marker when both names are generic. -/
lemma substEntity_generic (a b : Entity) (ha : a.generic = true)
    (hb : b.generic = true) (x : Entity) :
    (substEntity a b x).generic = x.generic := by
  unfold substEntity
  split_ifs with h
  · rw [hb, h, ha]
  · rfl

/-- Renaming leaves entities other than the renamed one unchanged. -/
lemma substEntity_of_ne (a b x : Entity) (h : x ≠ a) : substEntity a b x = x :=
  if_neg h

/-- Renaming is injective away from the fresh name `b`. -/
lemma substEntity_eq_iff (a b x y : Entity) (hx : x ≠ b) (hy : y ≠ b) :
    substEntity a b x = substEntity a b y ↔ x = y := by
  unfold substEntity
  split_ifs with h1 h2 h2
  · simp [h1, h2]
  · constructor
    · intro hby
      exact absurd hby.symm hy
    · intro hxy
      exact absurd (hxy.symm.trans h1) h2
  · constructor
    · intro hxb
      exact absurd hxb hx
    · intro hxy
      exact absurd (hxy.trans h2) h1
  · exact Iff.rfl

/-- Left lookup commutes with renaming the left components. -/
lemma lookupL_mapL (a b : Entity) (reg : Register) (x : Entity) (hx : x ≠ b)
    (hreg : ∀ p ∈ reg, p.1 ≠ b) :
    lookupL (mapRegL (substEntity a b) reg) (substEntity a b x) = lookupL reg x := by
  induction reg with
  | nil => rfl
  | cons p rest ih =>
    have hp : p.1 ≠ b := hreg p (List.mem_cons_self p rest)
    have hrest : ∀ q ∈ rest, q.1 ≠ b := fun q hq => hreg q (List.mem_cons_of_mem p hq)
    simp only [mapRegL, List.map_cons, lookupL]
    by_cases h : p.1 = x
    · rw [if_pos (by rw [h]), if_pos h]
    · rw [if_neg (fun hc => h ((substEntity_eq_iff a b p.1 x hp hx).mp hc)), if_neg h]
      exact ih hrest

/-- Right lookup sees renamed left components. -/
lemma lookupR_mapL (a b : Entity) (reg : Register) (y : Entity) :
    lookupR (mapRegL (substEntity a b) reg) y =
      (lookupR reg y).map (substEntity a b) := by
  induction reg with
  | nil => rfl
  | cons p rest ih =>
    simp only [mapRegL, List.map_cons, lookupR]
    by_cases h : p.2 = y
    · rw [if_pos h, if_pos h]
      rfl
    · rw [if_neg h, if_neg h]
      exact ih

/-- Right lookup commutes with renaming the right components. -/
lemma lookupR_mapR (a b : Entity) (reg : Register) (y : Entity) (hy : y ≠ b)
    (hreg : ∀ p ∈ reg, p.2 ≠ b) :
    lookupR (mapRegR (substEntity a b) reg) (substEntity a b y) = lookupR reg y := by
  induction reg with
  | nil => rfl
  | cons p rest ih =>
    have hp : p.2 ≠ b := hreg p (List.mem_cons_self p rest)
    have hrest : ∀ q ∈ rest, q.2 ≠ b := fun q hq => hreg q (List.mem_cons_of_mem p hq)
    simp only [mapRegR, List.map_cons, lookupR]
    by_cases h : p.2 = y
    · rw [if_pos (by rw [h]), if_pos h]
    · rw [if_neg (fun hc => h ((substEntity_eq_iff a b p.2 y hp hy).mp hc)), if_neg h]
      exact ih hrest

/-- Left lookup sees renamed right components. -/
lemma lookupL_mapR (a b : Entity) (reg : Register) (x : Entity) :
    lookupL (mapRegR (substEntity a b) reg) x =
      (lookupL reg x).map (substEntity a b) := by
  induction reg with
  | nil => rfl
  | cons p rest ih =>
    simp only [mapRegR, List.map_cons, lookupL]
    by_cases h : p.1 = x
    · rw [if_pos h, if_pos h]
      rfl
    · rw [if_neg h, if_neg h]
      exact ih

/-- A value returned by left lookup is a right component of the register. -/
lemma lookupL_mem (reg : Register) (x c : Entity) :
    lookupL reg x = some c → ∃ p ∈ reg, p.2 = c := by
  induction reg with
  | nil =>
    intro h
    simp [lookupL] at h
  | cons p rest ih =>
    intro h
    simp only [lookupL] at h
    by_cases hx : p.1 = x
    · rw [if_pos hx] at h
      injection h with hh
      exact ⟨p, List.mem_cons_self p rest, hh⟩
    · rw [if_neg hx] at h
      obtain ⟨q, hq, hqc⟩ := ih h
      exact ⟨q, List.mem_cons_of_mem p hq, hqc⟩

/-- Any pair of a successfully extended register is the new pair or an old
one. -/
lemma tryInsert_mem (reg : Register) (x y : Entity) (r2 : Register) :
    tryInsert reg x y = some r2 → ∀ p ∈ r2, p = (x, y) ∨ p ∈ reg := by
  unfold tryInsert
  cases h1 : lookupL reg x with
  | some c =>
    dsimp only
    by_cases h2 : c = y
    · rw [if_pos h2]
      intro h p hp
      injection h with he
      subst he
      exact Or.inr hp
    · rw [if_neg h2]
      intro h
      simp at h
  | none =>
    dsimp only
    cases h2 : lookupR reg y with
    | some c =>
      intro h
      simp at h
    | none =>
      dsimp only
      intro h p hp
      injection h with he
      subst he
      rcases List.mem_cons.mp hp with h3 | h3
      · exact Or.inl h3
      · exact Or.inr h3

/-- Register extension commutes with renaming the left components. -/
lemma tryInsert_mapL (a b : Entity) (reg : Register) (x y : Entity) (hx : x ≠ b)
    (hreg : ∀ p ∈ reg, p.1 ≠ b) :
    tryInsert (mapRegL (substEntity a b) reg) (substEntity a b x) y =
      (tryInsert reg x y).map (mapRegL (substEntity a b)) := by
  simp only [tryInsert, lookupL_mapL a b reg x hx hreg, lookupR_mapL]
  cases h1 : lookupL reg x with
  | some c =>
    dsimp only
    by_cases h2 : c = y
    · rw [if_pos h2, if_pos h2]
      rfl
    · rw [if_neg h2, if_neg h2]
      rfl
  | none =>
    dsimp only
    cases h2 : lookupR reg y with
    | some c => rfl
    | none => rfl

/-- Register extension commutes with renaming the right components. -/
lemma tryInsert_mapR (a b : Entity) (reg : Register) (x y : Entity) (hy : y ≠ b)
    (hreg : ∀ p ∈ reg, p.2 ≠ b) :
    tryInsert (mapRegR (substEntity a b) reg) x (substEntity a b y) =
      (tryInsert reg x y).map (mapRegR (substEntity a b)) := by
  simp only [tryInsert, lookupR_mapR a b reg y hy hreg, lookupL_mapR]
  cases h1 : lookupL reg x with
  | some c =>
    dsimp only [Option.map]
    have hc : c ≠ b := by
      obtain ⟨p, hp, hpc⟩ := lookupL_mem reg x c h1
      rw [← hpc]
      exact hreg p hp
    by_cases h2 : c = y
    · rw [if_pos (by rw [h2]), if_pos h2]
    · rw [if_neg (fun hc2 => h2 ((substEntity_eq_iff a b c y hc hy).mp hc2)), if_neg h2]
  | none =>
    dsimp only
    cases h2 : lookupR reg y with
    | some c => rfl
    | none => rfl

/-- Unification commutes with renaming a generic left term to a fresh
generic name: the search succeeds on the renamed terms exactly when it
succeeds on the originals, register for register. -/
lemma unifyTerms_mapL (a b : Entity) (ha : a.generic = true) (hb : b.generic = true)
    (as : List Entity) :
    ∀ (bs : List Entity) (reg : Register), b ∉ as → (∀ p ∈ reg, p.1 ≠ b) →
      unifyTerms (as.map (substEntity a b)) bs (mapRegL (substEntity a b) reg) =
        (unifyTerms as bs reg).map (mapRegL (substEntity a b)) := by
  induction as with
  | nil =>
    intro bs reg hnb hreg
    cases bs with
    | nil => rfl
    | cons y ys => rfl
  | cons x xs ih =>
    intro bs reg hnb hreg
    have hxb : x ≠ b := fun h => hnb (h ▸ List.mem_cons_self x xs)
    have hxs : b ∉ xs := fun h => hnb (List.mem_cons_of_mem x h)
    cases bs with
    | nil => rfl
    | cons y ys =>
      have hgen : (substEntity a b x).generic = x.generic :=
        substEntity_generic a b ha hb x
      by_cases c1 : x.generic = true ∧ y.generic = true
      · have c1m : (substEntity a b x).generic = true ∧ y.generic = true := by
          rw [hgen]
          exact c1
        simp only [List.map_cons, unifyTerms, if_pos c1, if_pos c1m]
        rw [tryInsert_mapL a b reg x y hxb hreg]
        cases htri : tryInsert reg x y with
        | none => simp
        | some r2 =>
          have hr2 : ∀ p ∈ r2, p.1 ≠ b := by
            intro p hp
            rcases tryInsert_mem reg x y r2 htri p hp with h | h
            · rw [h]
              exact hxb
            · exact hreg p h
          simpa using ih ys r2 hxs hr2
      · by_cases c2 : x.generic = false ∧ y.generic = false ∧ x = y
        · have hxa : x ≠ a := fun h => by
            have h2 : a.generic = false := h ▸ c2.1
            rw [ha] at h2
            exact Bool.noConfusion h2
          have hfx : substEntity a b x = x := substEntity_of_ne a b x hxa
          have c1m : ¬((substEntity a b x).generic = true ∧ y.generic = true) := by
            rw [hgen]
            exact c1
          have c2m : (substEntity a b x).generic = false ∧ y.generic = false ∧
              substEntity a b x = y := by
            rw [hfx]
            exact c2
          simp only [List.map_cons, unifyTerms, if_neg c1, if_neg c1m, if_pos c2,
            if_pos c2m]
          exact ih ys reg hxs hreg
        · have c1m : ¬((substEntity a b x).generic = true ∧ y.generic = true) := by
            rw [hgen]
            exact c1
          have c2m : ¬((substEntity a b x).generic = false ∧ y.generic = false ∧
              substEntity a b x = y) := by
            intro hc
            have hxgen : x.generic = false := by
              rw [← hgen]
              exact hc.1
            have hxa : x ≠ a := fun h => by
              have h2 : a.generic = false := h ▸ hxgen
              rw [ha] at h2
              exact Bool.noConfusion h2
            have hfx : substEntity a b x = x := substEntity_of_ne a b x hxa
            rw [hfx] at hc
            exact c2 hc
          simp only [List.map_cons, unifyTerms, if_neg c1, if_neg c1m, if_neg c2,
            if_neg c2m]
          rfl

/-- Unification commutes with renaming a generic right term to a fresh
generic name. -/
lemma unifyTerms_mapR (a b : Entity) (ha : a.generic = true) (hb : b.generic = true)
    (as : List Entity) :
    ∀ (bs : List Entity) (reg : Register), b ∉ bs → (∀ p ∈ reg, p.2 ≠ b) →
      unifyTerms as (bs.map (substEntity a b)) (mapRegR (substEntity a b) reg) =
        (unifyTerms as bs reg).map (mapRegR (substEntity a b)) := by
  induction as with
  | nil =>
    intro bs reg hnb hreg
    cases bs with
    | nil => rfl
    | cons y ys => rfl
  | cons x xs ih =>
    intro bs reg hnb hreg
    cases bs with
    | nil => rfl
    | cons y ys =>
      have hyb : y ≠ b := fun h => hnb (h ▸ List.mem_cons_self y ys)
      have hys : b ∉ ys := fun h => hnb (List.mem_cons_of_mem y h)
      have hgen : (substEntity a b y).generic = y.generic :=
        substEntity_generic a b ha hb y
      by_cases c1 : x.generic = true ∧ y.generic = true
      · have c1m : x.generic = true ∧ (substEntity a b y).generic = true := by
          rw [hgen]
          exact c1
        simp only [List.map_cons, unifyTerms, if_pos c1, if_pos c1m]
        rw [tryInsert_mapR a b reg x y hyb hreg]
        cases htri : tryInsert reg x y with
        | none => simp
        | some r2 =>
          have hr2 : ∀ p ∈ r2, p.2 ≠ b := by
            intro p hp
            rcases tryInsert_mem reg x y r2 htri p hp with h | h
            · rw [h]
              exact hyb
            · exact hreg p h
          simpa using ih ys r2 hys hr2
      · by_cases c2 : x.generic = false ∧ y.generic = false ∧ x = y
        · have hya : y ≠ a := fun h => by
            have h2 : a.generic = false := h ▸ c2.2.1
            rw [ha] at h2
            exact Bool.noConfusion h2
          have hfy : substEntity a b y = y := substEntity_of_ne a b y hya
          have c1m : ¬(x.generic = true ∧ (substEntity a b y).generic = true) := by
            rw [hgen]
            exact c1
          have c2m : x.generic = false ∧ (substEntity a b y).generic = false ∧
              x = substEntity a b y := by
            rw [hfy]
            exact c2
          simp only [List.map_cons, unifyTerms, if_neg c1, if_neg c1m, if_pos c2,
            if_pos c2m]
          exact ih ys reg hys hreg
        · have c1m : ¬(x.generic = true ∧ (substEntity a b y).generic = true) := by
            rw [hgen]
            exact c1
          have c2m : ¬(x.generic = false ∧ (substEntity a b y).generic = false ∧
              x = substEntity a b y) := by
            intro hc
            have hygen : y.generic = false := by
              rw [← hgen]
              exact hc.2.1
            have hya : y ≠ a := fun h => by
              have h2 : a.generic = false := h ▸ hygen
              rw [ha] at h2
              exact Bool.noConfusion h2
            have hfy : substEntity a b y = y := substEntity_of_ne a b y hya
            rw [hfy] at hc
            exact c2 hc
          simp only [List.map_cons, unifyTerms, if_neg c1, if_neg c1m, if_neg c2,
            if_neg c2m]
          rfl

/-- Emptiness of a filterMap only depends on which candidates succeed. -/
lemma filterMap_isEmpty_congr {α β : Type} (f g : α → Option β) (l : List α)
    (h : ∀ x ∈ l, (f x).isSome = (g x).isSome) :
    (l.filterMap f).isEmpty = (l.filterMap g).isEmpty := by
  induction l with
  | nil => rfl
  | cons x xs ih =>
    have hx := h x (List.mem_cons_self x xs)
    have hxs := ih fun y hy => h y (List.mem_cons_of_mem x hy)
    cases hfx : f x with
    | some v =>
      cases hgx : g x with
      | some w => simp [List.filterMap_cons, hfx, hgx]
      | none =>
        rw [hfx, hgx] at hx
        simp at hx
    | none =>
      cases hgx : g x with
      | some w =>
        rw [hfx, hgx] at hx
        simp at hx
      | none => simp [List.filterMap_cons, hfx, hgx, hxs]

/-- The candidate orderings of a renamed right statement are the renamed
candidate orderings. -/
lemma termOrderings_rename (t s : Stmt) (a b : Entity) :
    termOrderings t (Stmt.renameTerm s a b) =
      (termOrderings t s).map (List.map (substEntity a b)) := by
  simp only [termOrderings, Stmt.renameTerm, List.length_map]
  split_ifs with h
  · simp [List.map_reverse]
  · simp

/-! Claim theorems. -/

/-- C1: for the documented nafta/brexit three-statement FactorGroups,
`nafta.contradicts(brexit)` is true; enumerating
`nafta.explanations_contradiction(brexit)` with no seed context yields
exactly 4 explanations, and exactly 2 when the context is seeded with
USA mapped to UK. -/
theorem treaty_groups_contradiction_counts :
    FactorGroup.contradicts nafta brexit = true ∧
    (FactorGroup.explanations_contradiction nafta brexit []).length = 4 ∧
    (FactorGroup.explanations_contradiction nafta brexit [(usa, uk)]).length = 2 := by
  refine ⟨by decide, by decide, by decide⟩

/-- C2: quantity-range implication returns true iff the left interval is
fully contained in the right one after unit conversion (and is false for
incompatible dimensions); concretely, a range greater than 100 yards does
not imply one less than 1 mile, while less than 1 mile does imply less
than 2 kilometers, for Statements over the same terms. -/
theorem comparison_implies_iff_interval_subset :
    (∀ a b : QRange, 0 < a.baseMagnitude → 0 < b.baseMagnitude →
      (QRange.implies a b = true ↔ a.unit.dim = b.unit.dim ∧ a.toSet ⊆ b.toSet)) ∧
    Stmt.implies over100yToProtest under1miSameTerms = false ∧
    Stmt.implies under1miSameTerms under2kmSameTerms = true :=
  ⟨fun a b h1 h2 => QRange.implies_iff a b h1 h2, by decide, by decide⟩

/-- C2 witness: the characterization applied to the documented
100 yards / 1 mile ranges, with the positivity hypotheses discharged. -/
theorem comparison_implies_iff_interval_subset_witness :
    (0 : ℚ) < QRange.baseMagnitude ⟨100, .yard, .gt⟩ ∧
    (0 : ℚ) < QRange.baseMagnitude ⟨1, .mile, .lt⟩ ∧
    (QRange.implies ⟨100, .yard, .gt⟩ ⟨1, .mile, .lt⟩ = true ↔
      QUnit.dim .yard = QUnit.dim .mile ∧
        QRange.toSet ⟨100, .yard, .gt⟩ ⊆ QRange.toSet ⟨1, .mile, .lt⟩) :=
  ⟨by decide, by decide,
    comparison_implies_iff_interval_subset.1 ⟨100, .yard, .gt⟩ ⟨1, .mile, .lt⟩
      (by decide) (by decide)⟩

/-- C3: quantity-range contradiction returns true exactly when the two
intervals, both read as true statements about the same quantity, are
disjoint after unit conversion; concretely, the Statement that the weight
was greater than 26000 pounds contradicts the Statement (with matching
terms) that it was no more than 3000 kilograms. -/
theorem comparison_contradicts_iff_interval_disjoint :
    (∀ a b : QRange, 0 < a.baseMagnitude → 0 < b.baseMagnitude →
      (QRange.contradicts a b = true ↔
        a.unit.dim = b.unit.dim ∧ Disjoint a.toSet b.toSet)) ∧
    Stmt.contradicts poundsStatement kilosStatement = true :=
  ⟨fun a b h1 h2 => QRange.contradicts_iff a b h1 h2, by decide⟩

/-- C3 witness: the characterization applied to the documented
26000 pounds / 3000 kilograms ranges, with the positivity hypotheses
discharged. -/
theorem comparison_contradicts_iff_interval_disjoint_witness :
    (0 : ℚ) < QRange.baseMagnitude ⟨26000, .pound, .gt⟩ ∧
    (0 : ℚ) < QRange.baseMagnitude ⟨3000, .kilogram, .le⟩ ∧
    (QRange.contradicts ⟨26000, .pound, .gt⟩ ⟨3000, .kilogram, .le⟩ = true ↔
      QUnit.dim .pound = QUnit.dim .kilogram ∧
        Disjoint (QRange.toSet ⟨26000, .pound, .gt⟩)
          (QRange.toSet ⟨3000, .kilogram, .le⟩)) :=
  ⟨by decide, by decide,
    comparison_contradicts_iff_interval_disjoint.1 ⟨26000, .pound, .gt⟩
      ⟨3000, .kilogram, .le⟩ (by decide) (by decide)⟩

/-- C4: constructing a Comparison with `truth=false` and sign `>=` produces
the same object as constructing with `truth=true` and sign `<`, hence the
same means/implies/contradicts results in any Statement. -/
theorem comparison_truth_false_normalization :
    Comparison.make "the weight of marijuana possessed was" .ge 1 .ounce false =
      Comparison.make "the weight of marijuana possessed was" .lt 1 .ounce true ∧
    ∀ (ts : List Entity) (inter ab gen : Bool) (other : Stmt),
      Stmt.means
          ⟨Comparison.make "the weight of marijuana possessed was" .ge 1 .ounce false,
            ts, inter, ab, gen⟩ other =
        Stmt.means
          ⟨Comparison.make "the weight of marijuana possessed was" .lt 1 .ounce true,
            ts, inter, ab, gen⟩ other ∧
      Stmt.implies
          ⟨Comparison.make "the weight of marijuana possessed was" .ge 1 .ounce false,
            ts, inter, ab, gen⟩ other =
        Stmt.implies
          ⟨Comparison.make "the weight of marijuana possessed was" .lt 1 .ounce true,
            ts, inter, ab, gen⟩ other ∧
      Stmt.contradicts
          ⟨Comparison.make "the weight of marijuana possessed was" .ge 1 .ounce false,
            ts, inter, ab, gen⟩ other =
        Stmt.contradicts
          ⟨Comparison.make "the weight of marijuana possessed was" .lt 1 .ounce true,
            ts, inter, ab, gen⟩ other := by
  have h : Comparison.make "the weight of marijuana possessed was" .ge 1 .ounce false =
      Comparison.make "the weight of marijuana possessed was" .lt 1 .ounce true := by
    decide
  refine ⟨h, fun ts inter ab gen other => ?_⟩
  rw [h]
  exact ⟨rfl, rfl, rfl⟩

/-- C5: for statements whose template marks the two roles as mutually
interchangeable (placeholders differing only by a trailing index), every
comparison result is invariant under swapping the other statement's term
order; concretely, the documented distance Statement of at least 1 mile
between (meeting, protest) contradicts the Statement of less than 1 mile
between (protest, meeting) — the swapped form of the same-terms
Statement. -/
theorem interchangeable_terms_swap_invariance :
    (∀ l r : Stmt, l.interchangeable = true → r.interchangeable = true →
      r.terms.length = 2 →
      Stmt.means l (Stmt.swapTerms r) = Stmt.means l r ∧
      Stmt.implies l (Stmt.swapTerms r) = Stmt.implies l r ∧
      Stmt.contradicts l (Stmt.swapTerms r) = Stmt.contradicts l r) ∧
    under1miToProtest = Stmt.swapTerms under1miSameTerms ∧
    Stmt.contradicts atLeast1miToProtest under1miToProtest = true := by
  refine ⟨?_, by decide, by decide⟩
  intro l r hl hr hlen
  have hd1 := contextRegisters_swap_right l r hl hr hlen
  have hd2 := contextRegisters_swap_left l r hl hr hlen
  have hsm : meansShape l (Stmt.swapTerms r) = meansShape l r := rfl
  have hsm2 : meansShape (Stmt.swapTerms r) l = meansShape r l := rfl
  have hsi : impliesShape l (Stmt.swapTerms r) = impliesShape l r := rfl
  have hsc : contradictsShape l (Stmt.swapTerms r) = contradictsShape l r := rfl
  refine ⟨?_, ?_, ?_⟩
  · simp only [Stmt.means, Stmt.explanations_same_meaning, hsm, hsm2]
    cases hs1 : meansShape l r <;> cases hs2 : meansShape r l <;>
      simp [hd1, hd2]
  · simp only [Stmt.implies, Stmt.explanations_implication, hsi]
    cases hs : impliesShape l r <;> simp [hd1]
  · simp only [Stmt.contradicts, Stmt.explanations_contradiction, hsc]
    cases hs : contradictsShape l r <;> simp [hd1]

/-- C5 witness: the invariance applied to the documented distance
statements, with the interchangeability and length hypotheses
discharged. -/
theorem interchangeable_terms_swap_invariance_witness :
    atLeast1miToProtest.interchangeable = true ∧
    under1miSameTerms.interchangeable = true ∧
    under1miSameTerms.terms.length = 2 ∧
    (Stmt.means atLeast1miToProtest (Stmt.swapTerms under1miSameTerms) =
        Stmt.means atLeast1miToProtest under1miSameTerms ∧
      Stmt.implies atLeast1miToProtest (Stmt.swapTerms under1miSameTerms) =
        Stmt.implies atLeast1miToProtest under1miSameTerms ∧
      Stmt.contradicts atLeast1miToProtest (Stmt.swapTerms under1miSameTerms) =
        Stmt.contradicts atLeast1miToProtest under1miSameTerms) :=
  ⟨rfl, rfl, rfl,
    interchangeable_terms_swap_invariance.1 atLeast1miToProtest under1miSameTerms
      rfl rfl rfl⟩

/-- C6: `means` results depend on a generic Entity's name only through the
matching register: renaming a generic term everywhere in a Statement to a
fresh generic name never changes `means` against any other Statement; and
two Statements identical except for one term, where the differing entities
have different names and at least one is non-generic, are never
means-equal (term sequences contain no duplicate terms, per the
construction-time invariant). -/
theorem generic_name_invariance_nongeneric_distinctness :
    (∀ (s t : Stmt) (a b : Entity), a.generic = true → b.generic = true →
      b ∉ s.terms →
      Stmt.means (Stmt.renameTerm s a b) t = Stmt.means s t) ∧
    (∀ (s : Stmt) (pre post : List Entity) (e e2 : Entity),
      s.terms = pre ++ e :: post →
      (pre ++ e :: post).Nodup → (pre ++ e2 :: post).Nodup →
      e.name ≠ e2.name → (e.generic = false ∨ e2.generic = false) →
      Stmt.means s {s with terms := pre ++ e2 :: post} = false) := by
  constructor
  · intro s t a b ha hb hfresh
    have hshape1 : meansShape (Stmt.renameTerm s a b) t = meansShape s t := rfl
    have hshape2 : meansShape t (Stmt.renameTerm s a b) = meansShape t s := rfl
    have hordL : termOrderings (Stmt.renameTerm s a b) t = termOrderings s t := rfl
    have hd1 : (contextRegisters (Stmt.renameTerm s a b) t []).isEmpty =
        (contextRegisters s t []).isEmpty := by
      simp only [contextRegisters, hordL]
      apply filterMap_isEmpty_congr
      intro ord _
      have hterms : (Stmt.renameTerm s a b).terms = s.terms.map (substEntity a b) := rfl
      rw [hterms]
      have hmap := unifyTerms_mapL a b ha hb s.terms ord []
        hfresh (fun p hp => absurd hp (List.not_mem_nil p))
      simp only [mapRegL, List.map_nil] at hmap
      rw [hmap]
      cases hh : unifyTerms s.terms ord [] <;> simp [hh]
    have hd2 : (contextRegisters t (Stmt.renameTerm s a b) []).isEmpty =
        (contextRegisters t s []).isEmpty := by
      simp only [contextRegisters, termOrderings_rename]
      rw [List.filterMap_map]
      apply filterMap_isEmpty_congr
      intro ord hord
      have hordb : b ∉ ord := by
        simp only [termOrderings] at hord
        by_cases hc : t.interchangeable = true ∧ s.interchangeable = true ∧
            s.terms.length = 2
        · rw [if_pos hc] at hord
          simp only [List.mem_cons, List.not_mem_nil, or_false] at hord
          rcases hord with rfl | rfl
          · exact hfresh
          · simpa using hfresh
        · rw [if_neg hc] at hord
          simp only [List.mem_cons, List.not_mem_nil, or_false] at hord
          subst hord
          exact hfresh
      have hmap := unifyTerms_mapR a b ha hb t.terms ord []
        hordb (fun p hp => absurd hp (List.not_mem_nil p))
      simp only [mapRegR, List.map_nil] at hmap
      simp only [Function.comp_apply]
      rw [hmap]
      cases hh : unifyTerms t.terms ord [] <;> simp [hh]
    simp only [Stmt.means, Stmt.explanations_same_meaning, hshape1, hshape2]
    cases h1 : meansShape s t <;> cases h2 : meansShape t s <;> simp [hd1, hd2]
  · intro s pre post e e2 hterms hnd hnd2 hname hgen
    have hne : e ≠ e2 := fun h => hname (congrArg Entity.name h)
    have hfail1 : ¬(e.generic = true ∧ e2.generic = true) := by
      rcases hgen with h | h <;> simp [h]
    have hfail2 : ¬(e.generic = false ∧ e2.generic = false ∧ e = e2) :=
      fun hc => hne hc.2.2
    have hempty : contextRegisters s {s with terms := pre ++ e2 :: post} [] = [] := by
      simp only [contextRegisters]
      rw [List.filterMap_eq_nil_iff]
      intro ord hord
      simp only [termOrderings] at hord
      by_cases hc : s.interchangeable = true ∧
          ({s with terms := pre ++ e2 :: post} : Stmt).interchangeable = true ∧
          ({s with terms := pre ++ e2 :: post} : Stmt).terms.length = 2
      · rw [if_pos hc] at hord
        have hlen2 : (pre ++ e2 :: post).length = 2 := hc.2.2
        simp only [List.mem_cons, List.not_mem_nil, or_false] at hord
        rcases hord with rfl | rfl
        · rw [hterms]
          exact unify_none_of_fail pre pre post post e e2 [] rfl hfail1 hfail2
        · cases pre with
          | nil =>
            cases post with
            | nil => simp at hlen2
            | cons p rest =>
              cases rest with
              | cons q qs => simp at hlen2
              | nil =>
                rw [hterms]
                have hsrev : ({s with terms := [] ++ e2 :: [p]} : Stmt).terms.reverse =
                    [p, e2] := by simp
                rw [hsrev]
                rcases hgen with hg | hg
                · have hep : e ≠ p := by
                    simp only [List.nil_append, List.nodup_cons, List.mem_singleton] at hnd
                    exact hnd.1
                  exact unify_none_of_fail [] [] [p] [e2] e p [] rfl
                    (by simp [hg]) (fun hc2 => hep hc2.2.2)
                · have hpe2 : p ≠ e2 := by
                    simp only [List.nil_append, List.nodup_cons,
                      List.mem_singleton] at hnd2
                    exact fun h => hnd2.1 h.symm
                  exact unify_none_of_fail [e] [p] [] [] p e2 [] rfl
                    (by simp [hg]) (fun hc2 => hpe2 hc2.2.2)
          | cons q qs =>
            cases qs with
            | cons _ _ => simp at hlen2
            | nil =>
              cases post with
              | cons _ _ => simp at hlen2
              | nil =>
                rw [hterms]
                have hsrev : ({s with terms := [q] ++ e2 :: []} : Stmt).terms.reverse =
                    [e2, q] := by simp
                rw [hsrev]
                rcases hgen with hg | hg
                · have heq : e ≠ q := by
                    simp only [List.singleton_append, List.nodup_cons,
                      List.mem_singleton] at hnd
                    exact fun h => hnd.1 h.symm
                  exact unify_none_of_fail [q] [e2] [] [] e q [] rfl
                    (by simp [hg]) (fun hc2 => heq hc2.2.2)
                · have hqe2 : q ≠ e2 := by
                    simp only [List.singleton_append, List.nodup_cons,
                      List.mem_singleton] at hnd2
                    exact hnd2.1
                  exact unify_none_of_fail [] [] [e] [q] q e2 [] rfl
                    (by simp [hg]) (fun hc2 => hqe2 hc2.2.2)
      · rw [if_neg hc] at hord
        simp only [List.mem_cons, List.not_mem_nil, or_false] at hord
        subst hord
        rw [hterms]
        exact unify_none_of_fail pre pre post post e e2 [] rfl hfail1 hfail2
    simp only [Stmt.means, Stmt.explanations_same_meaning]
    cases hs : meansShape s {s with terms := pre ++ e2 :: post} <;>
      simp [hempty]

/-- C6 witness: renaming the generic term of the Hades statement, and the
documented non-generic Harry Potter Statement against the generic Lee
Statement, with all hypotheses discharged. -/
theorem generic_name_invariance_nongeneric_distinctness_witness :
    (⟨"Hades", true, false⟩ : Entity).generic = true ∧
    (⟨"Zeus", true, false⟩ : Entity).generic = true ∧
    (⟨"Zeus", true, false⟩ : Entity) ∉ singularStatement.terms ∧
    Stmt.means
        (Stmt.renameTerm singularStatement ⟨"Hades", true, false⟩ ⟨"Zeus", true, false⟩)
        pluralStatement =
      Stmt.means singularStatement pluralStatement ∧
    Stmt.means harryStatement
      {harryStatement with terms := [] ++ (⟨"Lee", true, false⟩ : Entity) :: []} =
      false :=
  ⟨rfl, rfl, by decide,
    generic_name_invariance_nongeneric_distinctness.1 singularStatement pluralStatement
      ⟨"Hades", true, false⟩ ⟨"Zeus", true, false⟩ rfl rfl (by decide),
    generic_name_invariance_nongeneric_distinctness.2 harryStatement [] []
      ⟨"Harry Potter", false, false⟩ ⟨"Lee", true, false⟩ rfl (by decide) (by decide)
      (by decide) (Or.inl rfl)⟩

/-- C7: an empty FactorGroup has the same meaning as another empty
FactorGroup, and for every FactorGroup the empty group implies it and it
implies the empty group. -/
theorem empty_factor_group_identities :
    FactorGroup.means ⟨[]⟩ ⟨[]⟩ = true ∧
    ∀ g : FactorGroup,
      FactorGroup.implies ⟨[]⟩ g = true ∧ FactorGroup.implies g ⟨[]⟩ = true := by
  refine ⟨by decide, fun g => ⟨?_, ?_⟩⟩
  · simp [FactorGroup.implies]
  · simp [FactorGroup.implies, coverAll]

/-- C7 witness: the empty-group implications applied to the documented
nafta FactorGroup. -/
theorem empty_factor_group_identities_witness :
    FactorGroup.implies ⟨[]⟩ nafta = true ∧ FactorGroup.implies nafta ⟨[]⟩ = true :=
  ⟨(empty_factor_group_identities.2 nafta).1, (empty_factor_group_identities.2 nafta).2⟩

/-- C8: the comparison predicates are total Bool-valued functions (they can
never raise), and every no-match condition yields false: quantity ranges of
incompatible dimensions never imply nor contradict, and a quantity-bearing
Statement never implies, contradicts or means a Statement whose predicate
has no quantity range. -/
theorem comparison_predicates_total_false_on_mismatch :
    (∀ a b : QRange, a.unit.dim ≠ b.unit.dim →
      QRange.implies a b = false ∧ QRange.contradicts a b = false) ∧
    (∀ l r : Stmt, l.pred.range.isSome = true → r.pred.range = none →
      Stmt.implies l r = false ∧ Stmt.contradicts l r = false ∧
        Stmt.means l r = false) := by
  constructor
  · intro a b h
    constructor <;> simp [QRange.implies, QRange.contradicts, h]
  · intro l r hl hr
    obtain ⟨q, hq⟩ := Option.isSome_iff_exists.mp hl
    refine ⟨?_, ?_, ?_⟩
    · simp [Stmt.implies, Stmt.explanations_implication, impliesShape, hq, hr]
    · simp [Stmt.contradicts, Stmt.explanations_contradiction, contradictsShape, hq, hr]
    · simp [Stmt.means, Stmt.explanations_same_meaning, meansShape, hq, hr]

/-- C8 witness: incompatible dimensions (a length range against a mass
range) and a Comparison Statement against a plain treaty Statement, with
the hypotheses discharged. -/
theorem comparison_predicates_total_false_on_mismatch_witness :
    (QRange.implies ⟨100, .yard, .gt⟩ ⟨3000, .kilogram, .le⟩ = false ∧
      QRange.contradicts ⟨100, .yard, .gt⟩ ⟨3000, .kilogram, .le⟩ = false) ∧
    (Stmt.implies poundsStatement (treatyStmt mexico usa true) = false ∧
      Stmt.contradicts poundsStatement (treatyStmt mexico usa true) = false ∧
      Stmt.means poundsStatement (treatyStmt mexico usa true) = false) :=
  ⟨comparison_predicates_total_false_on_mismatch.1 _ _ (by decide),
    comparison_predicates_total_false_on_mismatch.2 poundsStatement
      (treatyStmt mexico usa true) (by decide) (by decide)⟩

/-- C9 counterexample: a caller-supplied context given as two term lists of
mismatched lengths (two left terms, one right term) does not fail: the
register is built from the pairs up to the shorter list, as the changelog
documents (`ContextRegister.from_lists works with unequal length lists`). -/
theorem from_lists_unequal_lengths_succeed :
    ContextRegister.from_lists [mexico, usa] [uk] = some [(mexico, uk)] := by
  decide

/-- The corrected group-implication direction reproduces the documented
tutorial run: the protest FactorGroup implies the speech-zone FactorGroup. -/
theorem protest_group_implies_speech_zone :
    FactorGroup.implies protestFacts speechZoneFacts = true := by
  decide

/-- C9 amended: a caller-supplied mapping context with an unknown key — a
key that is not one of the left factor's generic terms — fails immediately
with the fatal ContextFormatError (`none`) rather than being silently
ignored, and a mapping whose keys are all known is accepted; but two term
lists of mismatched lengths do not fail: `from_lists` accepts lists of any
lengths and pairs the terms positionally up to the shorter list, ignoring
the remainder. -/
theorem context_format_rules :
    (∀ xs ys : List Entity,
      (ContextRegister.from_lists xs ys).isSome = true ∧
      ContextRegister.from_lists xs ys =
        ContextRegister.from_lists (xs.take ys.length) (ys.take xs.length)) ∧
    (∀ (s : Stmt) (pairs : List (Entity × Entity)) (p : Entity × Entity),
      p ∈ pairs → p.1 ∉ s.generic_terms →
      ContextRegister.from_map s pairs = none) ∧
    (∀ (s : Stmt) (pairs : List (Entity × Entity)),
      (∀ p ∈ pairs, p.1 ∈ s.generic_terms) →
      ContextRegister.from_map s pairs = some pairs) := by
  refine ⟨?_, ?_, ?_⟩
  · intro xs
    induction xs with
    | nil =>
      intro ys
      cases ys <;> simp [ContextRegister.from_lists]
    | cons a as ih =>
      intro ys
      cases ys with
      | nil => simp [ContextRegister.from_lists]
      | cons b bs =>
        obtain ⟨h1, h2⟩ := ih bs
        obtain ⟨r, hr⟩ := Option.isSome_iff_exists.mp h1
        constructor
        · simp [ContextRegister.from_lists, hr]
        · simp only [List.length_cons, List.take_succ_cons, ContextRegister.from_lists]
          rw [← h2]
  · intro s pairs p hp hnot
    have hcond : ¬(pairs.all (fun q => decide (q.1 ∈ s.generic_terms)) = true) := by
      intro hall
      have h2 := List.all_eq_true.mp hall p hp
      simp only [decide_eq_true_eq] at h2
      exact hnot h2
    simp only [ContextRegister.from_map, if_neg hcond]
  · intro s pairs hall
    have hcond : pairs.all (fun q => decide (q.1 ∈ s.generic_terms)) = true := by
      apply List.all_eq_true.mpr
      intro p hp
      simp only [decide_eq_true_eq]
      exact hall p hp
    simp only [ContextRegister.from_map, if_pos hcond]

/-- C9 witness: the truncation applied to the concrete mismatched lists
(two left terms, one right term), and the unknown-key rejection and
known-key acceptance applied to the school statement about <Lee>. -/
theorem context_format_rules_witness :
    ((ContextRegister.from_lists [mexico, usa] [uk]).isSome = true ∧
      ContextRegister.from_lists [mexico, usa] [uk] =
        ContextRegister.from_lists ([mexico, usa].take [uk].length)
          ([uk].take [mexico, usa].length)) ∧
    ContextRegister.from_map singularStatement [(mexico, uk)] = none ∧
    ContextRegister.from_map singularStatement [(⟨"Lee", true, false⟩, uk)] =
      some [(⟨"Lee", true, false⟩, uk)] :=
  ⟨context_format_rules.1 [mexico, usa] [uk],
    context_format_rules.2.1 singularStatement [(mexico, uk)] (mexico, uk)
      (by decide) (by decide),
    context_format_rules.2.2 singularStatement [(⟨"Lee", true, false⟩, uk)]
      (by decide)⟩

/-- C10 counterexample: two school Statements identical except that one
generic term is plural and the other's corresponding term is singular do
have the same meaning (the matching engine treats generic Entities as
interchangeable regardless of name and plural, as the tutorial documents
with `plural_statement.means(singular_statement)` returning True). -/
theorem generic_plural_mismatch_means_true :
    Stmt.means studentsPlural studentsSingular = true := by
  decide

/-- C10 amended: `means` ignores plural/singular differences between
generic terms (any two one-term school Statements over generic Entities
have the same meaning, matching the documented plural/singular example),
while plural is respected for non-generic terms: the same Statements over
a non-generic Entity differing only in plural are not means-equal. -/
theorem plural_respected_only_for_nongeneric :
    (∀ (n1 n2 : String) (p1 p2 : Bool),
      Stmt.means ⟨notAtSchool, [⟨n1, true, p1⟩], false, false, false⟩
        ⟨notAtSchool, [⟨n2, true, p2⟩], false, false, false⟩ = true) ∧
    Stmt.means pluralStatement singularStatement = true ∧
    Stmt.means leePluralNonGeneric leeSingularNonGeneric = false := by
  refine ⟨fun n1 n2 p1 p2 => rfl, by decide, by decide⟩

/-- C10 witness: the generic-term half of the amended claim applied to the
documented plural and singular school Entities. -/
theorem plural_respected_only_for_nongeneric_witness :
    Stmt.means ⟨notAtSchool, [⟨"the students", true, true⟩], false, false, false⟩
      ⟨notAtSchool, [⟨"Lee", true, false⟩], false, false, false⟩ = true :=
  plural_respected_only_for_nongeneric.1 "the students" "Lee" true false

end Nettlesome
